import Mathlib

/-
Verification of the memory-augmented arXiv search pipeline
(src/arxiv_agent.py) against its natural-language specification.

The shallow embedding below translates the pipeline core:
ArxivSearchEngine.search_papers, PaperProcessor.format_papers_to_markdown
with its fallback, and the ArxivAgentApp orchestration methods
(_perform_search, _enhance_query_with_memory, _store_search_in_memory).
External collaborators (the arXiv client iterator, the OpenAI chat call,
the mem0 Memory service) are modelled as function parameters returning
Except values: an Except.error models a raised exception at that call
site, which is how the Python code observes collaborator failure.
Streamlit display calls (st.error, st.warning, st.info, st.markdown) are
modelled as fields of an Effects record collected by the orchestrator.
-/

namespace ArxivAgent

/-- Paper record, mirroring the dict built by
ArxivSearchEngine._extract_paper_data (src/arxiv_agent.py lines 79-93).
Every consumer reads fields with dict.get and a default, so each field is
an Option; a none models a missing key or a Python None value. -/
structure Paper where
  title : Option String
  id : Option String
  entry_id : Option String
  authors : Option (List String)
  primary_category : Option String
  categories : Option (List String)
  published : Option String
  pdf_url : Option String
  links : Option (List String)
  summary : Option String
  comment : Option String
deriving DecidableEq

/-- Concatenation of a list of strings, as produced by repeated
Python string += in a loop. -/
def strJoin : List String → String
  | [] => ""
  | s :: rest => s ++ strJoin rest

/-- The string sub occurs contiguously inside s. -/
def strContains (s sub : String) : Prop :=
  ∃ pre post : String, s = pre ++ sub ++ post

/-- Sort criteria of the arxiv client (arxiv.SortCriterion). -/
inductive SortCriterion
  | Relevance
  | LastUpdatedDate
  | SubmittedDate
deriving DecidableEq

/-- Sort orders of the arxiv client (arxiv.SortOrder). -/
inductive SortOrder
  | Ascending
  | Descending
deriving DecidableEq

/-- Search request handed to the arxiv client, mirroring the
arxiv.Search constructor call (src/arxiv_agent.py lines 62-67). -/
structure ArxivSearch where
  query : String
  max_results : Nat
  sort_by : SortCriterion
  sort_order : SortOrder
deriving DecidableEq

/-- Construction of the arxiv.Search request in
ArxivSearchEngine.search_papers: the issued query string is the
f-string "all:" followed by the search query, sorted by descending
relevance (src/arxiv_agent.py lines 62-67). -/
def searchOf (search_query : String) (max_results : Nat) : ArxivSearch :=
  { query := "all:" ++ search_query
    max_results := max_results
    sort_by := SortCriterion.Relevance
    sort_order := SortOrder.Descending }

/-- Per-result extraction loop of ArxivSearchEngine.search_papers
(src/arxiv_agent.py lines 69-77): each raw result either parses into a
Paper (modelled Except.ok) or raises inside _extract_paper_data
(modelled Except.error); a parse failure appends an st.warning message
and the loop continues with the next result. Returns the extracted
papers and the warning messages, each in iteration order. -/
def extractLoop : List (Except String Paper) → List Paper × List String
  | [] => ([], [])
  | Except.ok p :: rest =>
      (p :: (extractLoop rest).1, (extractLoop rest).2)
  | Except.error e :: rest =>
      ((extractLoop rest).1, ("Error processing article: " ++ e) :: (extractLoop rest).2)

/-- ArxivSearchEngine.search_papers (src/arxiv_agent.py lines 52-77).
The external client iterator is the parameter results; it either raises
wholesale (Except.error, a transport failure that propagates to the
caller) or yields the raw result list, whose items are then extracted
one by one with per-record fault isolation. -/
def search_papers (search_query : String) (max_results : Nat)
    (results : ArxivSearch → Except String (List (Except String Paper))) :
    Except String (List Paper × List String) :=
  (results (searchOf search_query max_results)).map extractLoop

/-- Test for a raw result whose extraction fails. -/
def isErr : Except String Paper → Bool
  | Except.ok _ => false
  | Except.error _ => true

/-- One numbered markdown section of the fallback rendering: the body of
one iteration of the loop in PaperProcessor._fallback_formatting
(src/arxiv_agent.py lines 138-143), with the dict.get defaults of the
source. -/
def _fallback_section (i : Nat) (paper : Paper) : String :=
  "### " ++ toString i ++ ". " ++ paper.title.getD "No title" ++ "\n" ++
  "**Authors:** " ++ String.intercalate ", " (paper.authors.getD []) ++ "\n\n" ++
  "**Abstract:** " ++ paper.summary.getD "No abstract available" ++ "\n\n" ++
  "**Link:** " ++ paper.pdf_url.getD "No link available" ++ "\n\n" ++
  "---\n\n"

/-- Accumulating loop of PaperProcessor._fallback_formatting: markdown
starts from the header and each enumerate(papers, 1) iteration appends
one section (src/arxiv_agent.py lines 137-144). -/
def _fallback_loop (markdown : String) (i : Nat) : List Paper → String
  | [] => markdown
  | paper :: rest => _fallback_loop (markdown ++ _fallback_section i paper) (i + 1) rest

/-- PaperProcessor._fallback_formatting (src/arxiv_agent.py
lines 135-144): pure, total, no external calls. -/
def _fallback_formatting (papers : List Paper) : String :=
  _fallback_loop "## Search Results\n\n" 1 papers

/-- Specification-side view of the fallback output: the list of
per-paper sections, numbered from n, in input order. -/
def sectionList (n : Nat) : List Paper → List String
  | [] => []
  | paper :: rest => _fallback_section n paper :: sectionList (n + 1) rest

/-- Observable outcome of PaperProcessor.format_papers_to_markdown:
the returned markdown, the number of chat-completion calls issued, and
the st.error message shown when the completion call raised. -/
structure FormatResult where
  output : String
  llmCalls : Nat
  errorShown : Option String
deriving DecidableEq

/-- PaperProcessor.format_papers_to_markdown (src/arxiv_agent.py
lines 102-123). The empty-list guard returns the sentinel before any
external call. Otherwise the chat-completion call is issued once; the
parameter llm models it as a function of the papers list (the prompt of
_create_formatting_prompt embeds str(papers), so the papers list
determines the call; no claim depends on the literal prompt text). On
Except.error the method shows an st.error and returns the fallback
rendering. -/
def format_papers_to_markdown (papers : List Paper)
    (llm : List Paper → Except String String) : FormatResult :=
  if papers.isEmpty then
    { output := "No papers found for the given query.", llmCalls := 0, errorShown := none }
  else
    match llm papers with
    | Except.ok text => { output := text, llmCalls := 1, errorShown := none }
    | Except.error e =>
        { output := _fallback_formatting papers
          llmCalls := 1
          errorShown := some ("Error formatting papers: " ++ e) }

/-- ArxivAgentApp._enhance_query_with_memory (src/arxiv_agent.py
lines 320-326). The method has the memory service in scope through
self.memory (modelled by the memory_search parameter) but its body never
consults it: the try block is exactly a return of the query, so the
except branch is unreachable and the result is the query unchanged for
every memory state. -/
def _enhance_query_with_memory
    (memory_search : String → Except String (List String)) (query : String) : String :=
  query

/-- One call to Memory.add as issued by _store_search_in_memory
(src/arxiv_agent.py lines 342-346): keyword arguments messages, user_id
and infer. -/
structure MemoryWrite where
  messages : String
  user_id : String
  infer : Bool
deriving DecidableEq

/-- The markdown episode block built by _store_search_in_memory
(src/arxiv_agent.py lines 334-339) from the original query and the
extracted paper titles. -/
def markdown_memory (query : String) (paper_titles : List String) : String :=
  "**🔍 Searched for:** " ++ query ++ "\n\n" ++
  (if paper_titles.isEmpty then ""
   else "**📄 Found Papers:**\n" ++
     strJoin (paper_titles.map fun title => "- " ++ title ++ "\n")) ++
  "\n---\n"

/-- Observable outcome of _store_search_in_memory: the attempted
Memory.add calls and the st.warning shown when the add raised. -/
structure StoreResult where
  writes : List MemoryWrite
  warning : Option String
deriving DecidableEq

/-- ArxivAgentApp._store_search_in_memory (src/arxiv_agent.py
lines 328-349): builds the title list with dict.get and default
"No Title", assembles the markdown block, and calls Memory.add with
infer=False. A raised add (Except.error) is caught locally and shown as
an st.warning (together with an st.exception traceback display, part of
the same non-fatal report); nothing propagates to the caller. -/
def _store_search_in_memory (user_id query : String) (papers : List Paper)
    (memory_add : MemoryWrite → Except String Unit) : StoreResult :=
  let paper_titles := papers.map fun paper => paper.title.getD "No Title"
  let write : MemoryWrite :=
    { messages := markdown_memory query paper_titles, user_id := user_id, infer := false }
  match memory_add write with
  | Except.ok _ => { writes := [write], warning := none }
  | Except.error e =>
      { writes := [write], warning := some ("Could not store search in memory: " ++ e) }

/-- Observable effects of one ArxivAgentApp._perform_search invocation:
the Streamlit messages shown, the markdown displayed, the Memory.add
calls attempted, and how many times each pipeline step ran. -/
structure Effects where
  errorShown : Option String
  formatErrorShown : Option String
  infoShown : Option String
  warningsShown : List String
  displayedMarkdown : Option String
  memoryWrites : List MemoryWrite
  enhanceCalls : Nat
  searchCalls : Nat
  formatCalls : Nat
  llmCalls : Nat
deriving DecidableEq

/-- Effects record with nothing shown and nothing run. -/
def noEffects : Effects :=
  { errorShown := none
    formatErrorShown := none
    infoShown := none
    warningsShown := []
    displayedMarkdown := none
    memoryWrites := []
    enhanceCalls := 0
    searchCalls := 0
    formatCalls := 0
    llmCalls := 0 }

/-- ArxivAgentApp._perform_search (src/arxiv_agent.py lines 289-318).
An empty user_id (Python falsy string) shows an st.error and returns
before the pipeline starts. Otherwise the query is enhanced, the search
runs on the enhanced query; a raised search (transport failure) is
caught by the outer except and shown as the single fatal st.error. A
non-empty paper list is formatted and displayed with st.markdown and
the episode is stored in memory; an empty list shows the st.info
no-results message and skips formatting and memory entirely. -/
def _perform_search (user_id search_query : String)
    (memory_search : String → Except String (List String))
    (results : ArxivSearch → Except String (List (Except String Paper)))
    (llm : List Paper → Except String String)
    (memory_add : MemoryWrite → Except String Unit) : Effects :=
  if user_id = "" then
    { noEffects with errorShown := some "Please enter a username in the sidebar first." }
  else
    let enhanced_query := _enhance_query_with_memory memory_search search_query
    match search_papers enhanced_query 10 results with
    | Except.error e =>
        { noEffects with
            errorShown := some ("An error occurred during search: " ++ e)
            enhanceCalls := 1
            searchCalls := 1 }
    | Except.ok (papers, warns) =>
        if papers.isEmpty then
          { noEffects with
              infoShown := some "No papers found for your query. Try different keywords."
              warningsShown := warns
              enhanceCalls := 1
              searchCalls := 1 }
        else
          let fr := format_papers_to_markdown papers llm
          let sr := _store_search_in_memory user_id search_query papers memory_add
          { errorShown := none
            formatErrorShown := fr.errorShown
            infoShown := none
            warningsShown := warns ++ sr.warning.toList
            displayedMarkdown := some fr.output
            memoryWrites := sr.writes
            enhanceCalls := 1
            searchCalls := 1
            formatCalls := 1
            llmCalls := fr.llmCalls }

/-- Sample record used to instantiate witnesses at a concrete input. -/
def samplePaper : Paper :=
  { title := some "Attention Is All You Need"
    id := some "1706.03762"
    entry_id := some "http://arxiv.org/abs/1706.03762v7"
    authors := some ["Ashish Vaswani", "Noam Shazeer"]
    primary_category := some "cs.CL"
    categories := some ["cs.CL", "cs.LG"]
    published := some "2017-06-12T17:57:34Z"
    pdf_url := some "http://arxiv.org/pdf/1706.03762v7"
    links := some ["http://arxiv.org/abs/1706.03762v7"]
    summary := some "The dominant sequence transduction models."
    comment := none }

lemma strContains_left {a sub : String} (b : String)
    (h : strContains a sub) : strContains (a ++ b) sub := by
  obtain ⟨u, v, rfl⟩ := h
  exact ⟨u, v ++ b, by simp [String.append_assoc]⟩

lemma strContains_right {b sub : String} (a : String)
    (h : strContains b sub) : strContains (a ++ b) sub := by
  obtain ⟨u, v, rfl⟩ := h
  exact ⟨a ++ u, v, by simp [String.append_assoc]⟩

lemma strContains_self (s : String) : strContains s s :=
  ⟨"", "", by simp [String.empty_append, String.append_empty]⟩

lemma strContains_strJoin_map {α : Type} (f : α → String) {x : α} {xs : List α}
    (hx : x ∈ xs) {sub : String} (hsub : strContains (f x) sub) :
    strContains (strJoin (xs.map f)) sub := by
  induction xs with
  | nil => cases hx
  | cons y ys ih =>
    rcases List.mem_cons.mp hx with h | h
    · subst h
      simp only [List.map_cons, strJoin]
      exact strContains_left _ hsub
    · simp only [List.map_cons, strJoin]
      exact strContains_right _ (ih h)

lemma fallback_loop_eq (papers : List Paper) : ∀ (acc : String) (n : Nat),
    _fallback_loop acc n papers = acc ++ strJoin (sectionList n papers) := by
  induction papers with
  | nil =>
    intro acc n
    simp [_fallback_loop, sectionList, strJoin, String.append_empty]
  | cons p rest ih =>
    intro acc n
    simp only [_fallback_loop, sectionList, strJoin]
    rw [ih]
    simp [String.append_assoc]

lemma sectionList_length (papers : List Paper) :
    ∀ n, (sectionList n papers).length = papers.length := by
  induction papers with
  | nil => intro n; rfl
  | cons p rest ih => intro n; simp [sectionList, ih]

lemma sectionList_get (papers : List Paper) : ∀ (n i : Nat) (p : Paper),
    papers.get? i = some p →
    (sectionList n papers).get? i = some (_fallback_section (n + i) p) := by
  induction papers with
  | nil => intro n i p h; simp at h
  | cons q rest ih =>
    intro n i p h
    cases i with
    | zero =>
      have hq : q = p := by simpa using h
      subst hq
      simp [sectionList]
    | succ j =>
      have h' : rest.get? j = some p := by simpa using h
      have heq : n + (j + 1) = (n + 1) + j := by omega
      show (sectionList (n + 1) rest).get? j = some (_fallback_section (n + (j + 1)) p)
      rw [heq]
      exact ih (n + 1) j p h'

/-- The successfully parsed record of a raw result, if any. -/
def okPart : Except String Paper → Option Paper
  | Except.ok p => some p
  | Except.error _ => none

/-- The extraction error message of a raw result, if any. -/
def errPart : Except String Paper → Option String
  | Except.ok _ => none
  | Except.error e => some e

/-- The papers returned by the extraction loop are exactly the
successfully parsed records, in input order. -/
lemma extractLoop_papers (rs : List (Except String Paper)) :
    (extractLoop rs).1 = rs.filterMap okPart := by
  induction rs with
  | nil => rfl
  | cons r rest ih => cases r <;> simp [extractLoop, okPart, ih]

/-- The warnings surfaced by the extraction loop are exactly the
warnings for the malformed records, in input order. -/
lemma extractLoop_warnMsgs (rs : List (Except String Paper)) :
    (extractLoop rs).2 =
      (rs.filterMap errPart).map fun e => "Error processing article: " ++ e := by
  induction rs with
  | nil => rfl
  | cons r rest ih => cases r <;> simp [extractLoop, errPart, ih]

lemma filterMap_errPart_length (rs : List (Except String Paper)) :
    (rs.filterMap errPart).length = rs.countP isErr := by
  induction rs with
  | nil => rfl
  | cons r rest ih => cases r <;> simp [errPart, isErr, List.countP_cons, ih]

lemma extractLoop_length (rs : List (Except String Paper)) :
    (extractLoop rs).1.length + (extractLoop rs).2.length = rs.length := by
  induction rs with
  | nil => rfl
  | cons r rest ih =>
    cases r with
    | ok p => simp only [extractLoop, List.length_cons]; omega
    | error e => simp only [extractLoop, List.length_cons]; omega

lemma extractLoop_warns (rs : List (Except String Paper)) :
    (extractLoop rs).2.length = rs.countP isErr := by
  induction rs with
  | nil => rfl
  | cons r rest ih =>
    cases r with
    | ok p => simp [extractLoop, isErr, List.countP_cons, ih]
    | error e => simp [extractLoop, isErr, List.countP_cons, ih]

lemma perform_search_success (user_id search_query : String)
    (memory_search : String → Except String (List String))
    (results : ArxivSearch → Except String (List (Except String Paper)))
    (llm : List Paper → Except String String)
    (memory_add : MemoryWrite → Except String Unit)
    (p : Paper) (ps : List Paper) (warns : List String)
    (huid : user_id ≠ "")
    (hsearch : search_papers search_query 10 results = Except.ok (p :: ps, warns)) :
    _perform_search user_id search_query memory_search results llm memory_add =
      { errorShown := none
        formatErrorShown := (format_papers_to_markdown (p :: ps) llm).errorShown
        infoShown := none
        warningsShown := warns ++
          (_store_search_in_memory user_id search_query (p :: ps) memory_add).warning.toList
        displayedMarkdown := some (format_papers_to_markdown (p :: ps) llm).output
        memoryWrites :=
          (_store_search_in_memory user_id search_query (p :: ps) memory_add).writes
        enhanceCalls := 1
        searchCalls := 1
        formatCalls := 1
        llmCalls := (format_papers_to_markdown (p :: ps) llm).llmCalls } := by
  unfold _perform_search
  rw [if_neg huid]
  simp only [_enhance_query_with_memory]
  rw [hsearch]
  rfl

lemma store_ok (user_id query : String) (papers : List Paper)
    (memory_add : MemoryWrite → Except String Unit)
    (hadd : ∀ w, memory_add w = Except.ok ()) :
    _store_search_in_memory user_id query papers memory_add =
      { writes := [{ messages := markdown_memory query
                       (papers.map fun paper => paper.title.getD "No Title"),
                     user_id := user_id, infer := false }],
        warning := none } := by
  simp only [_store_search_in_memory, hadd]

lemma markdown_memory_contains_query (query : String) (titles : List String) :
    strContains (markdown_memory query titles) query := by
  simp only [markdown_memory]
  exact strContains_left _ (strContains_left _ (strContains_left _
    (strContains_right _ (strContains_self _))))

lemma markdown_memory_contains_title (query : String) {titles : List String}
    {t : String} (ht : t ∈ titles) :
    strContains (markdown_memory query titles) t := by
  have hne : titles.isEmpty = false := by
    cases titles with
    | nil => cases ht
    | cons a l => rfl
  simp only [markdown_memory, hne, Bool.false_eq_true, if_false]
  refine strContains_left _ (strContains_right _ (strContains_right _ ?_))
  exact strContains_strJoin_map _ ht ⟨"- ", "\n", rfl⟩

/-- Claim C1, counterexample: even with a memory lookup that returns one
relevant entry (a non-empty result set), the enriched query is exactly
the original query with nothing appended — there is no bracketed
user-background annotation, refuting the claimed enrichment behavior. -/
theorem enhance_query_no_annotation_counterexample :
    _enhance_query_with_memory
        (fun _ => Except.ok ["prior interest: transformer architectures"]) "attention" =
      "attention" ∧
    ¬ ∃ ann : String, ann ≠ "" ∧
        _enhance_query_with_memory
            (fun _ => Except.ok ["prior interest: transformer architectures"]) "attention" =
          "attention" ++ ann := by
  refine ⟨rfl, ?_⟩
  rintro ⟨ann, hann, heq⟩
  have heq' : ("attention" : String) = "attention" ++ ann := heq
  have hdata := congrArg String.data heq'
  rw [String.data_append] at hdata
  have hnil : ann.data = [] := List.append_right_eq_self.mp hdata.symm
  exact hann (String.ext hnil)

/-- Claim C1, amended: for every memory lookup behavior and every query,
the enrichment step of this code variant returns the query unchanged —
when the lookup raises, when it returns no relevant entries, and equally
when relevant entries exist; the method never consults memory. -/
theorem enhance_query_passthrough
    (memory_search : String → Except String (List String)) (query : String) :
    _enhance_query_with_memory memory_search query = query := rfl

/-- Claim C2: for every non-empty paper list the fallback rendering is
the fixed header followed by the join of exactly one numbered section
per record, in input order; the section of record i carries the number
i+1 and the record title (placeholder "No title" when absent), and every
section contains the bold Authors, Abstract and Link labels and the
horizontal rule. The rendering is a total function with no collaborator
parameter, so it makes no external calls and has no failure mode. -/
theorem fallback_formatting_sections (papers : List Paper) (hne : papers ≠ []) :
    _fallback_formatting papers =
      "## Search Results\n\n" ++ strJoin (sectionList 1 papers) ∧
    (sectionList 1 papers).length = papers.length ∧
    (∀ i p, papers.get? i = some p →
      (sectionList 1 papers).get? i = some (_fallback_section (1 + i) p)) ∧
    ∀ i p, strContains (_fallback_section i p) ((p : Paper).title.getD "No title") ∧
      strContains (_fallback_section i p) "**Authors:** " ∧
      strContains (_fallback_section i p) "**Abstract:** " ∧
      strContains (_fallback_section i p) "**Link:** " ∧
      strContains (_fallback_section i p) "---\n\n" := by
  refine ⟨fallback_loop_eq papers _ _, sectionList_length papers 1,
    fun i p h => sectionList_get papers 1 i p h, fun i p => ?_⟩
  refine ⟨?_, ?_, ?_, ?_, ?_⟩ <;> simp only [_fallback_section]
  · exact strContains_left _ (strContains_left _ (strContains_left _ (strContains_left _
      (strContains_left _ (strContains_left _ (strContains_left _ (strContains_left _
      (strContains_left _ (strContains_left _ (strContains_left _
      (strContains_right _ (strContains_self _))))))))))))
  · exact strContains_left _ (strContains_left _ (strContains_left _ (strContains_left _
      (strContains_left _ (strContains_left _ (strContains_left _ (strContains_left _
      (strContains_left _ (strContains_right _ (strContains_self _))))))))))
  · exact strContains_left _ (strContains_left _ (strContains_left _ (strContains_left _
      (strContains_left _ (strContains_left _
      (strContains_right _ (strContains_self _)))))))
  · exact strContains_left _ (strContains_left _ (strContains_left _
      (strContains_right _ (strContains_self _))))
  · exact strContains_right _ (strContains_self _)

/-- Claim C2, witness at a concrete one-element paper list. -/
theorem fallback_formatting_sections_witness :
    _fallback_formatting [samplePaper] =
      "## Search Results\n\n" ++ strJoin (sectionList 1 [samplePaper]) :=
  (fallback_formatting_sections [samplePaper] (by simp)).1

/-- Claim C3: when the raw result list holds exactly one record whose
extraction fails, search_papers returns normally (Except.ok, never an
aborted search); the returned papers are exactly the successfully
parsed records, in input order — one fewer than the raw results — and
the returned warnings are exactly one warning naming the malformed
record's extraction error. -/
theorem search_papers_fault_isolation (search_query : String) (max_results : Nat)
    (rs : List (Except String Paper)) (hone : rs.countP isErr = 1) :
    ∃ e : String,
      rs.filterMap errPart = [e] ∧
      search_papers search_query max_results (fun _ => Except.ok rs) =
        Except.ok (rs.filterMap okPart, ["Error processing article: " ++ e]) ∧
      (rs.filterMap okPart).length + 1 = rs.length := by
  have hw := filterMap_errPart_length rs
  rw [hone] at hw
  obtain ⟨e, he⟩ := List.length_eq_one.mp hw
  have hpair : extractLoop rs =
      (rs.filterMap okPart, ["Error processing article: " ++ e]) := by
    have hm := extractLoop_warnMsgs rs
    rw [he] at hm
    simp only [List.map_cons, List.map_nil] at hm
    rw [← extractLoop_papers rs, ← hm]
  refine ⟨e, he, ?_, ?_⟩
  · have hrun : search_papers search_query max_results (fun _ => Except.ok rs) =
        Except.ok (extractLoop rs) := rfl
    rw [hrun, hpair]
  · have h1 := extractLoop_length rs
    have h2 := extractLoop_warns rs
    have hp := congrArg List.length (extractLoop_papers rs)
    omega

/-- Claim C3, witness: one malformed record among two raw results. -/
theorem search_papers_fault_isolation_witness :
    ∃ e : String,
      ([Except.ok samplePaper, Except.error "missing field"] :
          List (Except String Paper)).filterMap errPart = [e] ∧
      search_papers "quantum computing" 10
          (fun _ => Except.ok [Except.ok samplePaper, Except.error "missing field"]) =
        Except.ok (([Except.ok samplePaper, Except.error "missing field"] :
            List (Except String Paper)).filterMap okPart,
          ["Error processing article: " ++ e]) ∧
      (([Except.ok samplePaper, Except.error "missing field"] :
          List (Except String Paper)).filterMap okPart).length + 1 =
        ([Except.ok samplePaper, Except.error "missing field"] :
          List (Except String Paper)).length :=
  search_papers_fault_isolation "quantum computing" 10
    [Except.ok samplePaper, Except.error "missing field"] (by rfl)

/-- Claim C4: when the search step returns an empty paper list, the
orchestrator shows the non-error no-results info message and nothing
else: no error, no markdown display, no formatting call, no memory
write attempt. -/
theorem perform_search_no_results (user_id search_query : String)
    (memory_search : String → Except String (List String))
    (results : ArxivSearch → Except String (List (Except String Paper)))
    (llm : List Paper → Except String String)
    (memory_add : MemoryWrite → Except String Unit)
    (warns : List String)
    (huid : user_id ≠ "")
    (hsearch : search_papers search_query 10 results = Except.ok ([], warns)) :
    _perform_search user_id search_query memory_search results llm memory_add =
      { noEffects with
          infoShown := some "No papers found for your query. Try different keywords."
          warningsShown := warns
          enhanceCalls := 1
          searchCalls := 1 } := by
  unfold _perform_search
  rw [if_neg huid]
  simp only [_enhance_query_with_memory]
  rw [hsearch]
  rfl

/-- Claim C4, witness at a concrete empty search result. -/
theorem perform_search_no_results_witness :
    _perform_search "alice" "quantum computing" (fun _ => Except.ok [])
        (fun _ => Except.ok []) (fun _ => Except.error "llm down")
        (fun _ => Except.ok ()) =
      { noEffects with
          infoShown := some "No papers found for your query. Try different keywords."
          warningsShown := []
          enhanceCalls := 1
          searchCalls := 1 } :=
  perform_search_no_results "alice" "quantum computing" _ _ _ _ [] (by decide) rfl

/-- Claim C5: a successful search with a non-empty paper list attempts
exactly one memory write, for the given user and with infer=false, whose
content contains the original (unenriched) query and the title of every
returned paper (placeholder "No Title" when absent). -/
theorem perform_search_records_episode (user_id search_query : String)
    (memory_search : String → Except String (List String))
    (results : ArxivSearch → Except String (List (Except String Paper)))
    (llm : List Paper → Except String String)
    (memory_add : MemoryWrite → Except String Unit)
    (papers : List Paper) (warns : List String)
    (huid : user_id ≠ "")
    (hsearch : search_papers search_query 10 results = Except.ok (papers, warns))
    (hne : papers ≠ [])
    (hadd : ∀ w, memory_add w = Except.ok ()) :
    ∃ w : MemoryWrite,
      (_perform_search user_id search_query memory_search
          results llm memory_add).memoryWrites = [w] ∧
      w.user_id = user_id ∧ w.infer = false ∧
      strContains w.messages search_query ∧
      ∀ p ∈ papers, strContains w.messages (p.title.getD "No Title") := by
  obtain ⟨q, qs, rfl⟩ := List.exists_cons_of_ne_nil hne
  have h1 := perform_search_success user_id search_query memory_search results llm
    memory_add q qs warns huid hsearch
  have h2 := store_ok user_id search_query (q :: qs) memory_add hadd
  refine ⟨{ messages := markdown_memory search_query
              ((q :: qs).map fun paper => paper.title.getD "No Title"),
            user_id := user_id, infer := false }, ?_, rfl, rfl,
    markdown_memory_contains_query search_query _, ?_⟩
  · rw [h1]
    show (_store_search_in_memory user_id search_query (q :: qs) memory_add).writes = _
    rw [h2]
  · intro p hp
    exact markdown_memory_contains_title search_query
      (List.mem_map_of_mem (fun paper => paper.title.getD "No Title") hp)

/-- Claim C5, witness at a concrete successful one-paper search. -/
theorem perform_search_records_episode_witness :
    ∃ w : MemoryWrite,
      (_perform_search "alice" "quantum computing" (fun _ => Except.ok [])
          (fun _ => Except.ok [Except.ok samplePaper]) (fun _ => Except.ok "table")
          (fun _ => Except.ok ())).memoryWrites = [w] ∧
      w.user_id = "alice" ∧ w.infer = false ∧
      strContains w.messages "quantum computing" ∧
      ∀ p ∈ [samplePaper], strContains w.messages (p.title.getD "No Title") :=
  perform_search_records_episode "alice" "quantum computing" _ _ _ _
    [samplePaper] [] (by decide) rfl (by simp) (fun _ => rfl)

/-- Claim C6: when the memory write raises, the failure surfaces only as
the non-fatal warning; no error is shown, the displayed markdown is the
formatter output unchanged, and it equals the markdown displayed by the
same invocation with a succeeding write — the successful search outcome
is never downgraded. -/
theorem perform_search_memory_failure_nonfatal (user_id search_query : String)
    (memory_search : String → Except String (List String))
    (results : ArxivSearch → Except String (List (Except String Paper)))
    (llm : List Paper → Except String String)
    (papers : List Paper) (warns : List String) (e : String)
    (huid : user_id ≠ "")
    (hsearch : search_papers search_query 10 results = Except.ok (papers, warns))
    (hne : papers ≠ []) :
    (_perform_search user_id search_query memory_search results llm
        (fun _ => Except.error e)).errorShown = none ∧
    (_perform_search user_id search_query memory_search results llm
        (fun _ => Except.error e)).warningsShown =
      warns ++ ["Could not store search in memory: " ++ e] ∧
    (_perform_search user_id search_query memory_search results llm
        (fun _ => Except.error e)).displayedMarkdown =
      some (format_papers_to_markdown papers llm).output ∧
    (_perform_search user_id search_query memory_search results llm
        (fun _ => Except.error e)).displayedMarkdown =
      (_perform_search user_id search_query memory_search results llm
        (fun _ => Except.ok ())).displayedMarkdown := by
  obtain ⟨q, qs, rfl⟩ := List.exists_cons_of_ne_nil hne
  have h1 := perform_search_success user_id search_query memory_search results llm
    (fun _ => Except.error e) q qs warns huid hsearch
  have h2 := perform_search_success user_id search_query memory_search results llm
    (fun _ => Except.ok ()) q qs warns huid hsearch
  rw [h1, h2]
  exact ⟨rfl, rfl, rfl, rfl⟩

/-- Claim C6, witness at a concrete run whose memory write raises. -/
theorem perform_search_memory_failure_nonfatal_witness :
    (_perform_search "alice" "quantum computing" (fun _ => Except.ok [])
        (fun _ => Except.ok [Except.ok samplePaper]) (fun _ => Except.ok "table")
        (fun _ => Except.error "qdrant down")).errorShown = none ∧
    (_perform_search "alice" "quantum computing" (fun _ => Except.ok [])
        (fun _ => Except.ok [Except.ok samplePaper]) (fun _ => Except.ok "table")
        (fun _ => Except.error "qdrant down")).warningsShown =
      [] ++ ["Could not store search in memory: " ++ "qdrant down"] ∧
    (_perform_search "alice" "quantum computing" (fun _ => Except.ok [])
        (fun _ => Except.ok [Except.ok samplePaper]) (fun _ => Except.ok "table")
        (fun _ => Except.error "qdrant down")).displayedMarkdown =
      some (format_papers_to_markdown [samplePaper] (fun _ => Except.ok "table")).output ∧
    (_perform_search "alice" "quantum computing" (fun _ => Except.ok [])
        (fun _ => Except.ok [Except.ok samplePaper]) (fun _ => Except.ok "table")
        (fun _ => Except.error "qdrant down")).displayedMarkdown =
      (_perform_search "alice" "quantum computing" (fun _ => Except.ok [])
        (fun _ => Except.ok [Except.ok samplePaper]) (fun _ => Except.ok "table")
        (fun _ => Except.ok ())).displayedMarkdown :=
  perform_search_memory_failure_nonfatal "alice" "quantum computing" _ _ _
    [samplePaper] [] "qdrant down" (by decide) rfl (by simp)

/-- Claim C7: when the text-generation call raises on a non-empty paper
list, the formatter returns the deterministic fallback rendering of the
same records, and the orchestrator run shows no error and displays that
fallback markdown — the invocation continues to a successful outcome. -/
theorem format_failure_falls_back (user_id search_query : String)
    (memory_search : String → Except String (List String))
    (results : ArxivSearch → Except String (List (Except String Paper)))
    (memory_add : MemoryWrite → Except String Unit)
    (papers : List Paper) (warns : List String) (e : String)
    (llm : List Paper → Except String String)
    (huid : user_id ≠ "")
    (hsearch : search_papers search_query 10 results = Except.ok (papers, warns))
    (hne : papers ≠ [])
    (hllm : llm papers = Except.error e) :
    (format_papers_to_markdown papers llm).output = _fallback_formatting papers ∧
    (_perform_search user_id search_query memory_search results llm
        memory_add).errorShown = none ∧
    (_perform_search user_id search_query memory_search results llm
        memory_add).displayedMarkdown = some (_fallback_formatting papers) := by
  obtain ⟨q, qs, rfl⟩ := List.exists_cons_of_ne_nil hne
  have hfmt : format_papers_to_markdown (q :: qs) llm =
      { output := _fallback_formatting (q :: qs), llmCalls := 1,
        errorShown := some ("Error formatting papers: " ++ e) } := by
    unfold format_papers_to_markdown
    rw [hllm]
    rfl
  have h1 := perform_search_success user_id search_query memory_search results llm
    memory_add q qs warns huid hsearch
  rw [h1, hfmt]
  exact ⟨rfl, rfl, rfl⟩

/-- Claim C7, witness at a concrete run whose generation call raises. -/
theorem format_failure_falls_back_witness :
    (format_papers_to_markdown [samplePaper] (fun _ => Except.error "quota")).output =
      _fallback_formatting [samplePaper] ∧
    (_perform_search "alice" "quantum computing" (fun _ => Except.ok [])
        (fun _ => Except.ok [Except.ok samplePaper]) (fun _ => Except.error "quota")
        (fun _ => Except.ok ())).errorShown = none ∧
    (_perform_search "alice" "quantum computing" (fun _ => Except.ok [])
        (fun _ => Except.ok [Except.ok samplePaper]) (fun _ => Except.error "quota")
        (fun _ => Except.ok ())).displayedMarkdown =
      some (_fallback_formatting [samplePaper]) :=
  format_failure_falls_back "alice" "quantum computing" _ _ _
    [samplePaper] [] "quota" _ (by decide) rfl (by simp) rfl

/-- Claim C8: on the empty paper list the formatter returns the fixed
sentinel with zero text-generation calls and no error display, for every
behavior of the generation service. -/
theorem format_empty_returns_sentinel (llm : List Paper → Except String String) :
    format_papers_to_markdown [] llm =
      { output := "No papers found for the given query.", llmCalls := 0,
        errorShown := none } := rfl

/-- Claim C9: an empty user_id is a fatal precondition failure: the
orchestrator shows the error immediately and nothing else happens — no
enrichment, no search, no formatting, no memory write, regardless of the
collaborators. -/
theorem perform_search_empty_user_id (search_query : String)
    (memory_search : String → Except String (List String))
    (results : ArxivSearch → Except String (List (Except String Paper)))
    (llm : List Paper → Except String String)
    (memory_add : MemoryWrite → Except String Unit) :
    _perform_search "" search_query memory_search results llm memory_add =
      { noEffects with
          errorShown := some "Please enter a username in the sidebar first." } := rfl

/-- Claim C10: the adapter never issues the user query verbatim: the
arxiv.Search request carries the field-scope prefixed string built from
"all:" and the query, which differs from the query itself. -/
theorem searchOf_prepends_field_scope (search_query : String) (max_results : Nat) :
    (searchOf search_query max_results).query = "all:" ++ search_query ∧
    (searchOf search_query max_results).query ≠ search_query := by
  refine ⟨rfl, ?_⟩
  intro h
  have h' : ("all:" ++ search_query : String) = search_query := h
  have hlen := congrArg String.length h'
  rw [String.length_append] at hlen
  have h4 : ("all:" : String).length = 4 := rfl
  omega

end ArxivAgent
